import Mathlib

set_option maxHeartbeats 1000000
set_option maxRecDepth 4000

/-!
Verification development for a two-exercise C++ lab repository:
a directory-scanning text-file analyzer (`performFileAnalysis` and friends)
and a prefix-expression evaluator (`evaluatePrefixValue`).

The analyzer is embedded over the sequence of lines produced by `getline`
(which strips the newline terminator); the directory listing and file reads,
being I/O, are passed in explicitly (`Except` for the listing, an optional
read function for file contents).  Machine integers (`int`, `size_t`) never
overflow on realistic inputs modelled here and are embedded as `Nat`;
`double` values in the evaluator are embedded as `Rat` (the claims checked
concern operand order and guards, not rounding).
-/

/-- ASCII `isalpha` from `<cctype>` in the C locale. -/
def isAlphaChar (c : Char) : Bool :=
  ('a' ≤ c && c ≤ 'z') || ('A' ≤ c && c ≤ 'Z')

/-- ASCII `isdigit`. -/
def isDigitChar (c : Char) : Bool :=
  '0' ≤ c && c ≤ '9'

/-- ASCII `isspace`: space, tab, newline, vertical tab, form feed, carriage return. -/
def isSpaceChar (c : Char) : Bool :=
  c = ' ' || c = '\t' || c = '\n' || c = '\x0b' || c = '\x0c' || c = '\r'

/-- The vowel test from `performFileAnalysis` (both cases, exactly the ten letters). -/
def isVowelChar (c : Char) : Bool :=
  c = 'a' || c = 'e' || c = 'i' || c = 'o' || c = 'u' ||
  c = 'A' || c = 'E' || c = 'I' || c = 'O' || c = 'U'

/-- The fixed stop-word set from `performFileAnalysis` (note the literal
single-space entry present in the source). -/
def stopWords : List String :=
  ["the", "and", "in", "of", "on", "a", "an", "is", "it", "to", "for", "with",
   "at", "by", "from", "that", "this", "these", "those", "as", "be", "been",
   "are", "was", "were", "or", "but", "if", "then", "so", "because", " "]

/-- The mutable scan state of the per-file loop in `performFileAnalysis`:
the emitted `words`, the in-progress buffer `singleWord`, and the counters. -/
structure ScanState where
  words : List String
  singleWord : List Char
  lineCount : Nat
  wordCount : Nat
  vowelCount : Nat
  consonantCount : Nat
  charCount : Nat

/-- Counters and collections start at zero / empty. -/
def ScanState.init : ScanState :=
  { words := [], singleWord := [], lineCount := 0, wordCount := 0,
    vowelCount := 0, consonantCount := 0, charCount := 0 }

/-- One iteration of the per-character classification from
`performFileAnalysis`: vowels and consonants are pushed onto the buffer and
counted, digits are pushed and counted, whitespace emits the buffer as a word
and clears it, anything else only increments the character counter. -/
def processChar (st : ScanState) (c : Char) : ScanState :=
  if isAlphaChar c then
    if isVowelChar c then
      { st with singleWord := st.singleWord ++ [c],
                vowelCount := st.vowelCount + 1, charCount := st.charCount + 1 }
    else
      { st with singleWord := st.singleWord ++ [c],
                consonantCount := st.consonantCount + 1, charCount := st.charCount + 1 }
  else if isDigitChar c then
    { st with singleWord := st.singleWord ++ [c], charCount := st.charCount + 1 }
  else if isSpaceChar c then
    { st with words := st.words ++ [String.mk st.singleWord],
              wordCount := st.wordCount + 1, singleWord := [] }
  else
    { st with charCount := st.charCount + 1 }

/-- The `for (char c : line)` loop.  In the source, `vector<char> singleWord;`
is declared INSIDE this loop's body, so the buffer is re-initialized to empty
before every single character; that scoping is reproduced here by resetting
`singleWord` on each iteration. -/
def scanLine (st : ScanState) (line : List Char) : ScanState :=
  line.foldl (fun s c => processChar { s with singleWord := [] } c) st

/-- The `while (getline(fileRead, line))` loop: the line counter is bumped
once per line read, then the line's characters are scanned. -/
def scanFile (lines : List String) : ScanState :=
  lines.foldl (fun st line => scanLine { st with lineCount := st.lineCount + 1 } line.data)
    ScanState.init

/-- `wordCount[word]++` on an association list: increment the existing entry
or append a fresh one with count 1. -/
def bump : List (String × Nat) → String → List (String × Nat)
  | [], w => [(w, 1)]
  | (k, v) :: rest, w => if k = w then (k, v + 1) :: rest else (k, v) :: bump rest w

/-- The frequency-map construction loop in `performFileAnalysis`: empty words
and stop words are skipped, every other word bumps its entry.  The
`unordered_map` is modelled as an association list in first-insertion order
(its iteration order is unspecified in the source). -/
def buildWordCount (ws : List String) : List (String × Nat) :=
  ws.foldl (fun m w => if w = "" || stopWords.contains w then m else bump m w) []

/-- The value the map associates to a word (0 if absent). -/
def lookupCount (m : List (String × Nat)) (w : String) : Nat :=
  match m.find? (fun p => p.1 == w) with
  | some p => p.2
  | none => 0

/-- The comparator passed to `sort`: `b.second < a.second`, i.e. descending
by count. -/
def byCountDesc (a b : String × Nat) : Prop := b.2 ≤ a.2

instance : DecidableRel byCountDesc := fun a b => Nat.decLe b.2 a.2

instance : IsTotal (String × Nat) byCountDesc := ⟨fun a b => Nat.le_total b.2 a.2⟩

instance : IsTrans (String × Nat) byCountDesc := ⟨fun _ _ _ hab hbc => Nat.le_trans hbc hab⟩

/-- Build the frequency map and sort its pairs by descending count
(`std::sort` is modelled by insertion sort; tie order is unspecified either
way). -/
def wordFrequency (ws : List String) : List (String × Nat) :=
  List.insertionSort byCountDesc (buildWordCount ws)

/-- The per-file result record (`struct FileAnalysis`). -/
structure FileAnalysis where
  fileName : String
  lineCount : Nat
  wordCount : Nat
  commonWords : List (String × Nat)
  avgWordLength : Nat
  charCount : Nat
  vowelCount : Nat
  consonantCount : Nat

/-- Analysis of one file, given the lines `getline` yields: run the scan,
build the sorted frequency list, and assemble the record, with
`avgWordLength = (wordCounter == 0) ? 0 : charCounter / wordCounter`. -/
def analyzeLines (name : String) (lines : List String) : FileAnalysis :=
  let st := scanFile lines
  { fileName := name
    lineCount := st.lineCount
    wordCount := st.wordCount
    commonWords := wordFrequency st.words
    avgWordLength := if st.wordCount = 0 then 0 else st.charCount / st.wordCount
    charCount := st.charCount
    vowelCount := st.vowelCount
    consonantCount := st.consonantCount }

/-- `getline` splitting: lines are maximal runs up to `'\n'`, the terminator
is consumed and not part of the line, a final line without terminator is
still yielded, and an empty file yields no lines. -/
def splitLinesGo : List Char → List Char → List String
  | [], [] => []
  | [], acc => [String.mk acc]
  | c :: rest, acc =>
    if c = '\n' then String.mk acc :: splitLinesGo rest []
    else splitLinesGo rest (acc ++ [c])

/-- Split file contents into the lines `getline` would produce. -/
def splitLines (s : String) : List String := splitLinesGo s.data []

/-- The vowel-to-consonant figure printed by `reportResults`:
`vowelCount == 0 ? 0.0 : consonantCount / vowelCount` — an integer (`size_t`)
division guarded against a zero vowel count. -/
def reportRatioValue (a : FileAnalysis) : Nat :=
  if a.vowelCount = 0 then 0 else a.consonantCount / a.vowelCount

/-- A directory entry as tested by `getFileNamesInDirectory`. -/
structure DirEntry where
  name : String
  isRegularFile : Bool
  extension : String

/-- `getFileNamesInDirectory`: the filesystem's answer is passed in as an
`Except` (the `directory_iterator` either throws or yields the entries).
Returns the selected file names together with the error messages printed.
On success, regular files with extension `.txt` are kept; on failure the
catch block reports the error and the (still empty) name list is returned. -/
def getFileNamesInDirectory (listing : Except String (List DirEntry)) :
    List String × List String :=
  match listing with
  | Except.error e => ([], ["Error reading directory: " ++ e])
  | Except.ok entries =>
    ((entries.filter (fun en => en.isRegularFile && en.extension == ".txt")).map
      (fun en => en.name), [])

/-- `performFileAnalysis`: list the directory, then analyze each named file,
skipping files that cannot be opened (`readLines name = none`). -/
def performFileAnalysis (listing : Except String (List DirEntry))
    (readLines : String → Option (List String)) : List FileAnalysis :=
  (getFileNamesInDirectory listing).1.foldl
    (fun acc name =>
      match readLines name with
      | none => acc
      | some lines => acc ++ [analyzeLines name lines]) []

/-- Number of non-whitespace characters across the lines. -/
def countNonSpace (lines : List String) : Nat :=
  (lines.map (fun l => l.data.countP (fun c => !isSpaceChar c))).sum

/-- Number of letters and digits across the lines. -/
def letterDigitCount (lines : List String) : Nat :=
  (lines.map (fun l => l.data.countP (fun c => isAlphaChar c || isDigitChar c))).sum

/-- Number of classified characters that are neither letters nor whitespace
(digits, punctuation, symbols) across the lines. -/
def digitOtherCount (lines : List String) : Nat :=
  (lines.map (fun l => l.data.countP (fun c => !isSpaceChar c && !isAlphaChar c))).sum

/-- Number of whitespace characters across the lines. -/
def spaceCount (lines : List String) : Nat :=
  (lines.map (fun l => l.data.countP (fun c => isSpaceChar c))).sum

/-- Number of alphabetic vowels across the lines. -/
def vowelTotal (lines : List String) : Nat :=
  (lines.map (fun l => l.data.countP (fun c => isAlphaChar c && isVowelChar c))).sum

/-- Number of alphabetic consonants across the lines. -/
def consonantTotal (lines : List String) : Nat :=
  (lines.map (fun l => l.data.countP (fun c => isAlphaChar c && !isVowelChar c))).sum

/-- Every character of the string is whitespace. -/
def allSpace (s : String) : Bool := s.data.all isSpaceChar

/-- Every character of every line is whitespace. -/
def allSpaceLines (lines : List String) : Bool := lines.all allSpace

/-- Some line is nonempty. -/
def someLineNonEmpty (lines : List String) : Bool := lines.any (fun l => l ≠ "")

/-- `isOperator` from the evaluator. -/
def isOperator (op : String) : Bool :=
  op == "+" || op == "-" || op == "*" || op == "/"

/-- `applyOperator` from the evaluator, with `double` embedded as `Rat`;
division by zero is guarded to 0 exactly as in the source. -/
def applyOperator (op : String) (left right : Rat) : Rat :=
  if op = "+" then left + right
  else if op = "-" then left - right
  else if op = "*" then left * right
  else if op = "/" then (if right = 0 then 0 else left / right)
  else 0

/-- `isUselessToken` from the evaluator: brackets, braces, comma, empty. -/
def isUselessToken (t : String) : Bool :=
  t == "(" || t == ")" || t == "[" || t == "]" || t == "\x7b" || t == "\x7d" ||
  t == "," || t == ""

/-- Value of a digit run, most significant first. -/
def digitsVal (ds : List Char) : Nat :=
  ds.foldl (fun acc d => acc * 10 + (d.toNat - '0'.toNat)) 0

/-- Split a maximal leading digit run from the rest. -/
def takeDigits : List Char → List Char × List Char
  | [] => ([], [])
  | c :: rest =>
    if isDigitChar c then
      let p := takeDigits rest
      (c :: p.1, p.2)
    else ([], c :: rest)

/-- `stod` on a sign-free token: a decimal integer part, optionally followed
by a point and fractional digits; trailing characters are ignored, and the
parse fails (`invalid_argument`) when no digits are consumed. -/
def parseUnsigned (cs : List Char) : Option Rat :=
  let p := takeDigits cs
  match p.2 with
  | '.' :: rest2 =>
    let q := takeDigits rest2
    if p.1 = [] && q.1 = [] then none
    else some ((digitsVal p.1 : Rat) + (digitsVal q.1 : Rat) / ((10 : Rat) ^ q.1.length))
  | _ =>
    if p.1 = [] then none
    else some ((digitsVal p.1 : Rat))

/-- `stod` on a whole token: an optional sign then the unsigned form. -/
def parseNum (t : String) : Option Rat :=
  match t.data with
  | '-' :: rest => (parseUnsigned rest).map (fun x => -x)
  | '+' :: rest => parseUnsigned rest
  | cs => parseUnsigned cs

/-- Processing of one token against the solution stack in
`evaluatePrefixValue`: useless tokens are skipped; an operator pops (with a
0 default for an empty stack) the right then the left operand and pushes the
applied result; otherwise a successful `stod` pushes the number and a failed
one is ignored. -/
def evalToken (solutionStack : List Rat) (t : String) : List Rat :=
  if isUselessToken t then solutionStack
  else if isOperator t then
    let pr : Rat × List Rat :=
      match solutionStack with
      | [] => (0, [])
      | x :: xs => (x, xs)
    let pl : Rat × List Rat :=
      match pr.2 with
      | [] => (0, [])
      | x :: xs => (x, xs)
    applyOperator t pl.1 pr.1 :: pl.2
  else
    match parseNum t with
    | some v => v :: solutionStack
    | none => solutionStack

/-- `stream >> token` tokenization: maximal runs of non-whitespace
characters, in order. -/
def tokenizeGo : List Char → List Char → List String
  | [], acc => if acc = [] then [] else [String.mk acc]
  | c :: rest, acc =>
    if isSpaceChar c then
      (if acc = [] then tokenizeGo rest [] else String.mk acc :: tokenizeGo rest [])
    else tokenizeGo rest (acc ++ [c])

/-- Whitespace tokenization of the whole expression. -/
def tokenizeWs (s : String) : List String := tokenizeGo s.data []

/-- `evaluatePrefixValue`: the tokens are pushed onto a stack and then popped,
so they are processed right to left; the answer is the final stack's top,
or 0 if the stack is empty. -/
def evaluatePrefixValue (expression : String) : Rat :=
  let finalStack := (tokenizeWs expression).reverse.foldl evalToken []
  match finalStack with
  | [] => 0
  | top :: _ => top

/-! ### Character-classification facts -/

lemma space_not_alpha {c : Char} (h : isSpaceChar c = true) : isAlphaChar c = false := by
  simp only [isSpaceChar, Bool.or_eq_true, decide_eq_true_eq] at h
  rcases h with ((((rfl | rfl) | rfl) | rfl) | rfl) | rfl <;> decide

lemma space_not_digit {c : Char} (h : isSpaceChar c = true) : isDigitChar c = false := by
  simp only [isSpaceChar, Bool.or_eq_true, decide_eq_true_eq] at h
  rcases h with ((((rfl | rfl) | rfl) | rfl) | rfl) | rfl <;> decide

lemma not_alpha_space {c : Char} (ha : isAlphaChar c = true) (hs : isSpaceChar c = true) :
    False := by
  have h := space_not_alpha hs
  rw [ha] at h
  exact Bool.noConfusion h

/-! ### Per-character and per-line counter accounting -/

lemma processChar_counts (st : ScanState) (c : Char) :
    (processChar st c).charCount = st.charCount + (if isSpaceChar c then 0 else 1) ∧
    (processChar st c).wordCount = st.wordCount + (if isSpaceChar c then 1 else 0) ∧
    (processChar st c).vowelCount
      = st.vowelCount + (if isAlphaChar c && isVowelChar c then 1 else 0) ∧
    (processChar st c).consonantCount
      = st.consonantCount + (if isAlphaChar c && !isVowelChar c then 1 else 0) ∧
    (processChar st c).lineCount = st.lineCount ∧
    (processChar st c).words
      = st.words ++ (if isSpaceChar c then [String.mk st.singleWord] else []) := by
  cases hs : isSpaceChar c with
  | true =>
    have ha := space_not_alpha hs
    have hd := space_not_digit hs
    simp [processChar, ha, hd, hs]
  | false =>
    cases ha : isAlphaChar c with
    | true => cases hv : isVowelChar c <;> simp [processChar, ha, hv, hs]
    | false => cases hd : isDigitChar c <;> simp [processChar, ha, hd, hs]

lemma scanLine_step (st : ScanState) (c : Char) (rest : List Char) :
    scanLine st (c :: rest) = scanLine (processChar { st with singleWord := [] } c) rest := rfl

lemma scanLine_counts (cs : List Char) (st : ScanState) :
    (scanLine st cs).charCount = st.charCount + cs.countP (fun c => !isSpaceChar c) ∧
    (scanLine st cs).wordCount = st.wordCount + cs.countP (fun c => isSpaceChar c) ∧
    (scanLine st cs).vowelCount
      = st.vowelCount + cs.countP (fun c => isAlphaChar c && isVowelChar c) ∧
    (scanLine st cs).consonantCount
      = st.consonantCount + cs.countP (fun c => isAlphaChar c && !isVowelChar c) ∧
    (scanLine st cs).lineCount = st.lineCount ∧
    (scanLine st cs).words
      = st.words ++ List.replicate (cs.countP (fun c => isSpaceChar c)) "" := by
  induction cs generalizing st with
  | nil => simp [scanLine]
  | cons c rest ih =>
    rw [scanLine_step]
    obtain ⟨h1, h2, h3, h4, h5, h6⟩ := ih (processChar { st with singleWord := [] } c)
    obtain ⟨g1, g2, g3, g4, g5, g6⟩ := processChar_counts { st with singleWord := [] } c
    rw [h1, h2, h3, h4, h5, h6, g1, g2, g3, g4, g5, g6]
    simp only [List.countP_cons]
    refine ⟨?_, ?_, ?_, ?_, ?_, ?_⟩
    · cases hs : isSpaceChar c <;> simp [hs] <;> omega
    · cases hs : isSpaceChar c <;> simp [hs] <;> omega
    · cases hb : (isAlphaChar c && isVowelChar c) <;> simp [hb] <;> omega
    · cases hb : (isAlphaChar c && !isVowelChar c) <;> simp [hb] <;> omega
    · trivial
    · cases hs : isSpaceChar c <;>
        simp [hs, List.replicate_succ, List.append_assoc]

/-! ### Whole-file accounting -/

lemma scanFile_go (lines : List String) (st : ScanState) :
    (lines.foldl (fun st line => scanLine { st with lineCount := st.lineCount + 1 } line.data)
        st).charCount
      = st.charCount + countNonSpace lines ∧
    (lines.foldl (fun st line => scanLine { st with lineCount := st.lineCount + 1 } line.data)
        st).wordCount
      = st.wordCount + spaceCount lines ∧
    (lines.foldl (fun st line => scanLine { st with lineCount := st.lineCount + 1 } line.data)
        st).vowelCount
      = st.vowelCount + vowelTotal lines ∧
    (lines.foldl (fun st line => scanLine { st with lineCount := st.lineCount + 1 } line.data)
        st).consonantCount
      = st.consonantCount + consonantTotal lines ∧
    (lines.foldl (fun st line => scanLine { st with lineCount := st.lineCount + 1 } line.data)
        st).lineCount
      = st.lineCount + lines.length ∧
    (lines.foldl (fun st line => scanLine { st with lineCount := st.lineCount + 1 } line.data)
        st).words
      = st.words ++ List.replicate (spaceCount lines) "" := by
  induction lines generalizing st with
  | nil => simp [countNonSpace, spaceCount, vowelTotal, consonantTotal]
  | cons l rest ih =>
    simp only [List.foldl_cons]
    obtain ⟨i1, i2, i3, i4, i5, i6⟩ :=
      ih (scanLine { st with lineCount := st.lineCount + 1 } l.data)
    obtain ⟨s1, s2, s3, s4, s5, s6⟩ :=
      scanLine_counts l.data { st with lineCount := st.lineCount + 1 }
    rw [i1, i2, i3, i4, i5, i6, s1, s2, s3, s4, s5, s6]
    refine ⟨?_, ?_, ?_, ?_, ?_, ?_⟩
    · simp [countNonSpace]; omega
    · simp [spaceCount]; omega
    · simp [vowelTotal]; omega
    · simp [consonantTotal]; omega
    · simp; omega
    · simp only [spaceCount, List.map_cons, List.sum_cons, List.replicate_add,
        List.append_assoc]

lemma scanFile_counts (lines : List String) :
    (scanFile lines).charCount = countNonSpace lines ∧
    (scanFile lines).wordCount = spaceCount lines ∧
    (scanFile lines).vowelCount = vowelTotal lines ∧
    (scanFile lines).consonantCount = consonantTotal lines ∧
    (scanFile lines).lineCount = lines.length ∧
    (scanFile lines).words = List.replicate (spaceCount lines) "" := by
  obtain ⟨h1, h2, h3, h4, h5, h6⟩ := scanFile_go lines ScanState.init
  exact ⟨h1.trans (Nat.zero_add _), h2.trans (Nat.zero_add _), h3.trans (Nat.zero_add _),
         h4.trans (Nat.zero_add _), h5.trans (Nat.zero_add _), h6⟩

lemma analyzeLines_charCount (name : String) (lines : List String) :
    (analyzeLines name lines).charCount = (scanFile lines).charCount := rfl

lemma analyzeLines_wordCount (name : String) (lines : List String) :
    (analyzeLines name lines).wordCount = (scanFile lines).wordCount := rfl

lemma analyzeLines_vowelCount (name : String) (lines : List String) :
    (analyzeLines name lines).vowelCount = (scanFile lines).vowelCount := rfl

lemma analyzeLines_consonantCount (name : String) (lines : List String) :
    (analyzeLines name lines).consonantCount = (scanFile lines).consonantCount := rfl

lemma analyzeLines_lineCount (name : String) (lines : List String) :
    (analyzeLines name lines).lineCount = (scanFile lines).lineCount := rfl

lemma analyzeLines_commonWords (name : String) (lines : List String) :
    (analyzeLines name lines).commonWords = wordFrequency (scanFile lines).words := rfl

lemma analyzeLines_avgWordLength (name : String) (lines : List String) :
    (analyzeLines name lines).avgWordLength
      = if (scanFile lines).wordCount = 0 then 0
        else (scanFile lines).charCount / (scanFile lines).wordCount := rfl

/-- Per-character partition: vowels, consonants, and the remaining classified
(non-whitespace, non-alphabetic) characters exhaust the non-whitespace
characters. -/
lemma countP_classify (cs : List Char) :
    cs.countP (fun c => isAlphaChar c && isVowelChar c)
      + cs.countP (fun c => isAlphaChar c && !isVowelChar c)
      + cs.countP (fun c => !isSpaceChar c && !isAlphaChar c)
    = cs.countP (fun c => !isSpaceChar c) := by
  induction cs with
  | nil => rfl
  | cons c rest ih =>
    simp only [List.countP_cons]
    cases ha : isAlphaChar c with
    | true =>
      have hs : isSpaceChar c = false := by
        cases hs : isSpaceChar c
        · rfl
        · exact absurd ha (by simp [space_not_alpha hs])
      cases hv : isVowelChar c <;> simp [ha, hv, hs] <;> omega
    | false =>
      cases hs : isSpaceChar c <;> simp [ha, hs] <;> omega

lemma totals_partition (lines : List String) :
    vowelTotal lines + consonantTotal lines + digitOtherCount lines = countNonSpace lines := by
  induction lines with
  | nil => rfl
  | cons l rest ih =>
    simp only [vowelTotal, consonantTotal, digitOtherCount, countNonSpace,
      List.map_cons, List.sum_cons] at *
    have h := countP_classify l.data
    omega

/-! ### Frequency-map lemmas -/

lemma lookupCount_nil (w : String) : lookupCount [] w = 0 := rfl

lemma lookupCount_cons_eq {k w : String} (h : k = w) (v : Nat)
    (rest : List (String × Nat)) : lookupCount ((k, v) :: rest) w = v := by
  unfold lookupCount
  rw [List.find?_cons_of_pos _ (by simp [h])]

lemma lookupCount_cons_ne {k w : String} (h : k ≠ w) (v : Nat)
    (rest : List (String × Nat)) :
    lookupCount ((k, v) :: rest) w = lookupCount rest w := by
  unfold lookupCount
  rw [List.find?_cons_of_neg _ (by simp [h])]

lemma bump_lookup_self (m : List (String × Nat)) (w : String) :
    lookupCount (bump m w) w = lookupCount m w + 1 := by
  induction m with
  | nil => simp [bump, lookupCount_cons_eq rfl, lookupCount_nil]
  | cons p rest ih =>
    obtain ⟨k, v⟩ := p
    by_cases hk : k = w
    · subst hk
      simp [bump, lookupCount_cons_eq rfl]
    · simp only [bump, if_neg hk]
      rw [lookupCount_cons_ne hk, lookupCount_cons_ne hk, ih]

lemma bump_lookup_other (m : List (String × Nat)) (w w' : String) (h : w' ≠ w) :
    lookupCount (bump m w) w' = lookupCount m w' := by
  induction m with
  | nil => simp [bump, lookupCount_cons_ne (Ne.symm h), lookupCount_nil]
  | cons p rest ih =>
    obtain ⟨k, v⟩ := p
    by_cases hk : k = w
    · subst hk
      by_cases hw : k = w'
      · exact absurd hw.symm h
      · have hb : bump ((k, v) :: rest) k = (k, v + 1) :: rest := by simp [bump]
        rw [hb, lookupCount_cons_ne hw, lookupCount_cons_ne hw]
    · by_cases hw : k = w'
      · subst hw
        simp only [bump, if_neg hk]
        rw [lookupCount_cons_eq rfl, lookupCount_cons_eq rfl]
      · simp only [bump, if_neg hk]
        rw [lookupCount_cons_ne hw, lookupCount_cons_ne hw, ih]

lemma bump_keys (m : List (String × Nat)) (w : String) :
    (bump m w).map Prod.fst
      = if w ∈ m.map Prod.fst then m.map Prod.fst else m.map Prod.fst ++ [w] := by
  induction m with
  | nil => simp [bump]
  | cons p rest ih =>
    obtain ⟨k, v⟩ := p
    by_cases hk : k = w
    · subst hk
      simp [bump]
    · simp only [bump, if_neg hk, List.map_cons, ih]
      by_cases hw : w ∈ rest.map Prod.fst
      · simp [hw, Ne.symm hk]
      · simp [hw, Ne.symm hk]

lemma bump_entries (m : List (String × Nat)) (u : String) (P : String → Prop)
    (hm : ∀ p ∈ m, P p.1) (hu : P u) : ∀ p ∈ bump m u, P p.1 := by
  induction m with
  | nil =>
    intro p hp
    simp only [bump, List.mem_singleton] at hp
    subst hp
    exact hu
  | cons q rest ih =>
    obtain ⟨k, v⟩ := q
    by_cases hk : k = u
    · subst hk
      intro p hp
      simp only [bump, if_pos rfl] at hp
      rcases List.mem_cons.mp hp with rfl | hp
      · exact hu
      · exact hm _ (List.mem_cons_of_mem _ hp)
    · intro p hp
      simp only [bump, if_neg hk] at hp
      rcases List.mem_cons.mp hp with rfl | hp
      · exact hm _ (List.mem_cons_self _ _)
      · exact ih (fun q hq => hm _ (List.mem_cons_of_mem _ hq)) p hp

lemma bump_nodup (m : List (String × Nat)) (u : String)
    (h : (m.map Prod.fst).Nodup) : ((bump m u).map Prod.fst).Nodup := by
  rw [bump_keys]
  by_cases hu : u ∈ m.map Prod.fst
  · simpa [hu] using h
  · rw [if_neg hu, ← List.concat_eq_append]
    exact List.Nodup.concat hu h

lemma build_go_lookup (ws : List String) (m : List (String × Nat)) (w : String) :
    lookupCount
        (ws.foldl (fun m w => if w = "" || stopWords.contains w then m else bump m w) m) w
      = lookupCount m w
        + (if w = "" || stopWords.contains w then 0 else ws.count w) := by
  induction ws generalizing m with
  | nil =>
    by_cases hw : (w = "" || stopWords.contains w : Bool) = true
    · simp [hw]
    · simp [hw]
  | cons u rest ih =>
    simp only [List.foldl_cons]
    by_cases hu : (u = "" || stopWords.contains u : Bool) = true
    · rw [if_pos hu, ih]
      by_cases hw : (w = "" || stopWords.contains w : Bool) = true
      · rw [if_pos hw, if_pos hw]
      · rw [if_neg hw, if_neg hw]
        have hne : (u == w) = false := by
          by_cases h : u = w
          · subst h; exact absurd hu hw
          · simpa using h
        rw [List.count_cons, hne]
        simp
    · rw [if_neg hu, ih]
      by_cases hw : u = w
      · subst hw
        rw [bump_lookup_self, if_neg hu, if_neg hu, List.count_cons]
        simp
        omega
      · rw [bump_lookup_other _ _ _ (Ne.symm hw)]
        by_cases hw' : (w = "" || stopWords.contains w : Bool) = true
        · rw [if_pos hw', if_pos hw']
        · rw [if_neg hw', if_neg hw']
          have hne : (u == w) = false := by simpa using hw
          rw [List.count_cons, hne]
          simp

lemma build_go_entries (ws : List String) (m : List (String × Nat))
    (hm : ∀ p ∈ m, p.1 ≠ "" ∧ stopWords.contains p.1 = false) :
    ∀ p ∈ ws.foldl (fun m w => if w = "" || stopWords.contains w then m else bump m w) m,
      p.1 ≠ "" ∧ stopWords.contains p.1 = false := by
  induction ws generalizing m with
  | nil => exact hm
  | cons u rest ih =>
    simp only [List.foldl_cons]
    by_cases hu : (u = "" || stopWords.contains u : Bool) = true
    · rw [if_pos hu]
      exact ih m hm
    · rw [if_neg hu]
      refine ih (bump m u)
        (bump_entries m u (fun w => w ≠ "" ∧ stopWords.contains w = false) hm ?_)
      constructor
      · intro h
        exact hu (by simp [h])
      · by_cases h : stopWords.contains u = true
        · exact absurd (by simp only [h, Bool.or_true]) hu
        · simpa using h

lemma build_go_nodup (ws : List String) (m : List (String × Nat))
    (hm : (m.map Prod.fst).Nodup) :
    ((ws.foldl (fun m w => if w = "" || stopWords.contains w then m else bump m w)
        m).map Prod.fst).Nodup := by
  induction ws generalizing m with
  | nil => exact hm
  | cons u rest ih =>
    simp only [List.foldl_cons]
    by_cases hu : (u = "" || stopWords.contains u : Bool) = true
    · rw [if_pos hu]; exact ih m hm
    · rw [if_neg hu]; exact ih (bump m u) (bump_nodup m u hm)

lemma mem_lookup {m : List (String × Nat)} (hnd : (m.map Prod.fst).Nodup)
    {p : String × Nat} (hp : p ∈ m) : lookupCount m p.1 = p.2 := by
  induction m with
  | nil => exact absurd hp (List.not_mem_nil p)
  | cons q rest ih =>
    obtain ⟨k, v⟩ := q
    rcases List.mem_cons.mp hp with rfl | hp
    · exact lookupCount_cons_eq rfl _ _
    · rw [List.map_cons] at hnd
      have hk : k ∉ rest.map Prod.fst := (List.nodup_cons.mp hnd).1
      have hne : k ≠ p.1 := by
        intro h
        exact hk (h ▸ List.mem_map_of_mem Prod.fst hp)
      rw [lookupCount_cons_ne hne]
      exact ih (List.nodup_cons.mp hnd).2 hp

lemma lookup_pos_mem (m : List (String × Nat)) (w : String)
    (h : 0 < lookupCount m w) : (w, lookupCount m w) ∈ m := by
  cases hf : m.find? (fun p => p.1 == w) with
  | none =>
    unfold lookupCount at h
    rw [hf] at h
    exact absurd h (by simp)
  | some p =>
    have hl : lookupCount m w = p.2 := by unfold lookupCount; rw [hf]
    rw [hl]
    have hmem := List.mem_of_find?_eq_some hf
    have hpred : p.1 = w := by simpa using List.find?_some hf
    have hwp : (w, p.2) = p := by rw [← hpred]
    rw [hwp]
    exact hmem

lemma buildWordCount_lookup (ws : List String) (w : String) :
    lookupCount (buildWordCount ws) w
      = if w = "" || stopWords.contains w then 0 else ws.count w := by
  have h := build_go_lookup ws [] w
  rw [lookupCount_nil, Nat.zero_add] at h
  exact h

lemma buildWordCount_entries (ws : List String) :
    ∀ p ∈ buildWordCount ws, p.1 ≠ "" ∧ stopWords.contains p.1 = false :=
  build_go_entries ws [] (by intro p hp; exact absurd hp (List.not_mem_nil p))

lemma buildWordCount_nodup (ws : List String) :
    ((buildWordCount ws).map Prod.fst).Nodup :=
  build_go_nodup ws [] (by simp)

/-! ### Evaluator lemmas -/

lemma useless_parseNum (t : String) (h : isUselessToken t = true) : parseNum t = none := by
  simp only [isUselessToken, Bool.or_eq_true, beq_iff_eq] at h
  rcases h with ((((((rfl | rfl) | rfl) | rfl) | rfl) | rfl) | rfl) | rfl <;> rfl

lemma operator_parseNum (t : String) (h : isOperator t = true) : parseNum t = none := by
  simp only [isOperator, Bool.or_eq_true, beq_iff_eq] at h
  rcases h with ((rfl | rfl) | rfl) | rfl <;> rfl

lemma parseNum_not_useless {t : String} {x : Rat} (h : parseNum t = some x) :
    isUselessToken t = false := by
  cases hu : isUselessToken t
  · rfl
  · rw [useless_parseNum t hu] at h
    exact Option.noConfusion h

lemma parseNum_not_operator {t : String} {x : Rat} (h : parseNum t = some x) :
    isOperator t = false := by
  cases ho : isOperator t
  · rfl
  · rw [operator_parseNum t ho] at h
    exact Option.noConfusion h

lemma operator_not_useless {t : String} (h : isOperator t = true) :
    isUselessToken t = false := by
  simp only [isOperator, Bool.or_eq_true, beq_iff_eq] at h
  rcases h with ((rfl | rfl) | rfl) | rfl <;> rfl

lemma evalToken_num {t : String} {x : Rat} (h : parseNum t = some x) (s : List Rat) :
    evalToken s t = x :: s := by
  simp [evalToken, parseNum_not_useless h, parseNum_not_operator h, h]

lemma evalToken_op {t : String} (h : isOperator t = true) (x y : Rat) (s : List Rat) :
    evalToken (x :: y :: s) t = applyOperator t y x :: s := by
  simp [evalToken, operator_not_useless h, h]

/-! ### Claim theorems -/

/-- Claim C1 (code behavior at the claimed input): for the single line
"the quick brown fox" the scan counts a word only at each of the three
spaces (the final word is never flushed at end of line), and the frequency
list is empty because the per-character scope of the word buffer makes every
emitted word the empty string, which the frequency counter excludes.  The
claimed word count 4 and frequency list
quick/brown/fox are therefore not produced. -/
theorem sample_line_code_behavior :
    (analyzeLines "data.txt" ["the quick brown fox"]).wordCount = 3 ∧
    (analyzeLines "data.txt" ["the quick brown fox"]).commonWords = [] := by
  decide

/-- Claim C2 (code behavior at a failing input): scanning the line "ab "
emits the empty word at the space, not "ab", because `singleWord` is
declared inside the per-character loop and so never retains the letters
buffered by earlier iterations. -/
theorem word_buffer_code_behavior :
    (scanFile ["ab "]).words = [""] ∧ (scanFile ["ab "]).words ≠ ["ab"] := by
  decide

/-- Claim C3 counterexample: for a file whose single line is "!?" the
character count is 2 although the line contains no letters or digits —
punctuation DOES contribute to the character count. -/
theorem charCount_counterexample :
    (analyzeLines "punct.txt" ["!?"]).charCount = 2 ∧ letterDigitCount ["!?"] = 0 := by
  decide

/-- Claim C3 (amended): the character count equals the number of
non-whitespace characters across the lines — letters, digits, punctuation
and symbols all contribute; only whitespace is excluded. -/
theorem charCount_nonspace (name : String) (lines : List String) :
    (analyzeLines name lines).charCount = countNonSpace lines := by
  rw [analyzeLines_charCount]
  exact (scanFile_counts lines).1

/-- Claim C4: vowel count plus consonant count plus the count of the other
classified (non-whitespace, non-alphabetic) characters equals the character
count, and hence vowel count + consonant count ≤ character count. -/
theorem counts_partition_thm (name : String) (lines : List String) :
    (analyzeLines name lines).vowelCount + (analyzeLines name lines).consonantCount
        + digitOtherCount lines
      = (analyzeLines name lines).charCount ∧
    (analyzeLines name lines).vowelCount + (analyzeLines name lines).consonantCount
      ≤ (analyzeLines name lines).charCount := by
  obtain ⟨h1, h2, h3, h4, h5, h6⟩ := scanFile_counts lines
  rw [analyzeLines_vowelCount, analyzeLines_consonantCount, analyzeLines_charCount,
    h1, h3, h4]
  have hp := totals_partition lines
  omega

/-- Claim C5: the average word length is the character count integer-divided
by the word count when the word count is nonzero, and 0 when the word count
is zero. -/
theorem avgWordLength_thm (name : String) (lines : List String) :
    ((analyzeLines name lines).wordCount = 0 → (analyzeLines name lines).avgWordLength = 0) ∧
    ((analyzeLines name lines).wordCount ≠ 0 →
      (analyzeLines name lines).avgWordLength
        = (analyzeLines name lines).charCount / (analyzeLines name lines).wordCount) := by
  rw [analyzeLines_avgWordLength, analyzeLines_wordCount, analyzeLines_charCount]
  constructor
  · intro h
    rw [if_pos h]
  · intro h
    rw [if_neg h]

/-- Witness for claim C5 at the concrete file ["ab "]: one word, two
characters, average 2 = 2 / 1. -/
theorem avgWordLength_witness :
    (analyzeLines "sample.txt" ["ab "]).avgWordLength
      = (analyzeLines "sample.txt" ["ab "]).charCount
          / (analyzeLines "sample.txt" ["ab "]).wordCount :=
  (avgWordLength_thm "sample.txt" ["ab "]).2 (by decide)

/-- Claim C6: the reported vowel-to-consonant figure is 0 when the vowel
count is 0 (the division is never evaluated), and otherwise the consonant
count integer-divided by the vowel count. -/
theorem reportRatio_thm (a : FileAnalysis) :
    (a.vowelCount = 0 → reportRatioValue a = 0) ∧
    (a.vowelCount ≠ 0 → reportRatioValue a = a.consonantCount / a.vowelCount) := by
  unfold reportRatioValue
  constructor
  · intro h
    rw [if_pos h]
  · intro h
    rw [if_neg h]

/-- Witness for claim C6 at a concrete vowel-free analysis result ("bc "
has no vowels): the reported figure is 0, no division fault. -/
theorem reportRatio_witness :
    reportRatioValue (analyzeLines "cons.txt" ["bc "]) = 0 :=
  (reportRatio_thm (analyzeLines "cons.txt" ["bc "])).1 (by decide)

/-- Claim C7: every pair in the sorted frequency list has a non-empty,
non-stop-word key whose count is its number of occurrences among the emitted
words; every eligible word that occurs appears with its occurrence count;
and the list is sorted by descending count. -/
theorem wordFrequency_spec (ws : List String) :
    (∀ p ∈ wordFrequency ws,
        p.1 ≠ "" ∧ stopWords.contains p.1 = false ∧ p.2 = ws.count p.1) ∧
    (∀ w : String, w ≠ "" → stopWords.contains w = false → 0 < ws.count w →
        (w, ws.count w) ∈ wordFrequency ws) ∧
    List.Sorted byCountDesc (wordFrequency ws) := by
  have hperm := List.perm_insertionSort byCountDesc (buildWordCount ws)
  refine ⟨?_, ?_, List.sorted_insertionSort byCountDesc (buildWordCount ws)⟩
  · intro p hp
    have hp' : p ∈ buildWordCount ws := hperm.mem_iff.mp hp
    obtain ⟨h1, h2⟩ := buildWordCount_entries ws p hp'
    refine ⟨h1, h2, ?_⟩
    have hl := mem_lookup (buildWordCount_nodup ws) hp'
    have h2' : p.1 ∉ stopWords := by simpa using h2
    rw [← hl, buildWordCount_lookup]
    simp [h1, h2]
    exact fun hmem => absurd hmem h2'
  · intro w h1 h2 hpos
    have h2' : w ∉ stopWords := by simpa using h2
    have hl : lookupCount (buildWordCount ws) w = ws.count w := by
      rw [buildWordCount_lookup]
      simp [h1, h2]
      exact fun hmem => absurd hmem h2'
    have hmem := lookup_pos_mem (buildWordCount ws) w (by rw [hl]; exact hpos)
    rw [hl] at hmem
    exact hperm.mem_iff.mpr hmem

/-- Witness for claim C7 at the concrete word list ["fox", "fox", "the"]:
the pair ("fox", 2) is in the frequency list, its key is a non-empty
non-stop word, and its count is the number of occurrences. -/
theorem wordFrequency_witness :
    ("fox" : String) ≠ "" ∧ stopWords.contains "fox" = false ∧
      2 = (["fox", "fox", "the"] : List String).count "fox" :=
  (wordFrequency_spec ["fox", "fox", "the"]).1 ("fox", 2) (by decide)

/-- Claim C8: when the directory listing fails, `getFileNamesInDirectory`
returns the empty name list and reports the error, and the overall analysis
run continues, producing zero results. -/
theorem directory_error_thm (e : String) (readLines : String → Option (List String)) :
    getFileNamesInDirectory (Except.error e) = ([], ["Error reading directory: " ++ e]) ∧
    performFileAnalysis (Except.error e) readLines = [] :=
  ⟨rfl, rfl⟩

/-- Claim C9 counterexample: the file "\n" consists only of whitespace, yet
its word count is 0 (not ≥ 1): `getline` consumes the newline, so the scan
sees a single empty line and never processes a whitespace character. -/
theorem whitespace_newline_counterexample :
    allSpace "\n" = true ∧ splitLines "\n" = [""] ∧
    (analyzeLines "ws.txt" (splitLines "\n")).wordCount = 0 ∧
    (analyzeLines "ws.txt" (splitLines "\n")).lineCount = 1 := by
  decide

/-- Claim C9 (amended): a file whose lines consist only of whitespace
produces word count ≥ 1 provided some line is nonempty (i.e. the file
contains whitespace other than the newlines `getline` strips), and the line
count always equals the number of lines read. -/
theorem whitespace_file_thm (name : String) (lines : List String)
    (h1 : allSpaceLines lines = true) (h2 : someLineNonEmpty lines = true) :
    1 ≤ (analyzeLines name lines).wordCount ∧
    (analyzeLines name lines).lineCount = lines.length := by
  obtain ⟨hc, hw, hv, hk, hl, hws⟩ := scanFile_counts lines
  rw [analyzeLines_wordCount, analyzeLines_lineCount, hw, hl]
  refine ⟨?_, rfl⟩
  simp only [someLineNonEmpty, List.any_eq_true, decide_eq_true_eq] at h2
  obtain ⟨l, hlmem, hlne⟩ := h2
  simp only [allSpaceLines, List.all_eq_true] at h1
  have hall := h1 l hlmem
  have hall' : ∀ c ∈ l.data, isSpaceChar c = true := by
    simpa [allSpace, List.all_eq_true] using hall
  have hcount : l.data.countP (fun c => isSpaceChar c) = l.data.length := by
    rw [List.countP_eq_length]
    intro c hc'
    exact hall' c hc'
  have hdata : l.data ≠ [] := by
    intro hnil
    apply hlne
    cases l with
    | mk d =>
      simp only [String.data] at hnil
      subst hnil
      rfl
  have hlen : 1 ≤ l.data.length := List.length_pos.mpr hdata
  have hmem2 : l.data.countP (fun c => isSpaceChar c)
      ∈ lines.map (fun l => l.data.countP (fun c => isSpaceChar c)) :=
    List.mem_map_of_mem _ hlmem
  have hle : l.data.countP (fun c => isSpaceChar c)
      ≤ (lines.map (fun l => l.data.countP (fun c => isSpaceChar c))).sum :=
    List.single_le_sum (fun x _ => Nat.zero_le x) _ hmem2
  unfold spaceCount
  omega

/-- Witness for claim C9 at the concrete file with the single line " ":
all characters whitespace, some line nonempty, word count ≥ 1. -/
theorem whitespace_file_witness :
    1 ≤ (analyzeLines "blank.txt" [" "]).wordCount ∧
    (analyzeLines "blank.txt" [" "]).lineCount = 1 :=
  whitespace_file_thm "blank.txt" [" "] (by decide) (by decide)

/-- Claim C10: in the evaluator, an operator pops its right operand first
and its left operand second, so an expression "op x y" evaluates to
`y op x`. -/
theorem operand_order_thm (s op tx ty : String) (x y : Rat)
    (htok : tokenizeWs s = [op, tx, ty])
    (hop : isOperator op = true)
    (hx : parseNum tx = some x)
    (hy : parseNum ty = some y) :
    evaluatePrefixValue s = applyOperator op y x := by
  show (match (tokenizeWs s).reverse.foldl evalToken [] with
        | [] => (0 : Rat)
        | top :: _ => top)
      = applyOperator op y x
  rw [htok]
  have hrev : ([op, tx, ty] : List String).reverse = [ty, tx, op] := rfl
  rw [hrev]
  rw [List.foldl_cons, List.foldl_cons, List.foldl_cons, List.foldl_nil]
  rw [evalToken_num hy, evalToken_num hx, evalToken_op hop]

/-- Witness for claim C10: "- 5 3" evaluates to 3 - 5 = -2, not 2. -/
theorem operand_order_witness :
    evaluatePrefixValue "- 5 3" = (-2 : Rat) := by
  rw [operand_order_thm "- 5 3" "-" "5" "3" 5 3 (by decide) (by decide)
    (by decide) (by decide)]
  have happ : applyOperator "-" (3 : Rat) (5 : Rat) = 3 - 5 := by
    unfold applyOperator
    rw [if_neg (by decide), if_pos rfl]
  rw [happ]
  norm_num
